import Mathlib

/-!
Shallow embedding of the quote-processor / webhook-relay repository
(`main.py`, `try.py`, `get.py`).

Python strings are modelled as `List Char` (sequences of codepoints), so
`len`, slicing and concatenation translate directly to list operations.
External collaborators (the accounting application reached over COM, the
HTTP client, `difflib.get_close_matches`) are modelled as explicit inputs:
the text returned by a query, the outcome of a POST, and an oracle function
for the fuzzy matcher.
-/

namespace QuoteRepo

/-- Python strings as lists of codepoints. -/
abbrev Str := List Char

/-- Convert a Lean string literal to the embedding type. -/
def str (s : String) : Str := s.toList

/-- The ASCII whitespace characters recognised by Python's `str.strip()`
and by `\s` in the regexes of this repository (restricted to ASCII). -/
def isPySpace (c : Char) : Bool :=
  c = ' ' || c = '\t' || c = '\n' || c = '\r' || c = '\x0b' || c = '\x0c'

/-- Python `s.strip()`: drop whitespace from both ends. -/
def pyStrip (s : Str) : Str :=
  ((s.dropWhile isPySpace).reverse.dropWhile isPySpace).reverse

/-- Python `s.lower()` (ASCII letters). -/
def pyLower (s : Str) : Str := s.map Char.toLower

/-- Python `s.split(sep)` for a one-character separator, keeping empty
pieces (`''.split(',') == ['']`). -/
def splitOnChar (sep : Char) : Str → List Str
  | [] => [[]]
  | c :: cs =>
    if c = sep then [] :: splitOnChar sep cs
    else
      match splitOnChar sep cs with
      | [] => [[c]]
      | s :: ss => (c :: s) :: ss

/-- Python `s.split(',')`. -/
def splitOnComma : Str → List Str := splitOnChar ','

/-- Python `s.split(sep, 1)` for a comma, as used by
`line.split(",", 1)` with a two-name unpacking: `none` models the
`ValueError` raised when the line holds no comma. -/
def splitFirstComma : Str → Option (Str × Str)
  | [] => none
  | c :: cs =>
    if c = ',' then some ([], cs)
    else
      match splitFirstComma cs with
      | none => none
      | some (a, b) => some (c :: a, b)

/-- Python `', '.join(xs)`. -/
def joinCommaSpace : List Str → Str
  | [] => []
  | [x] => x
  | x :: xs => x ++ [',', ' '] ++ joinCommaSpace xs

/-- Decimal rendering of a number, for messages interpolating a status
code. -/
def natToStr (n : Nat) : Str := (Nat.repr n).toList

/-- `get_address_part(parts, max_chars=60)` from `split_address_into_four`
(`try.py` lines 513-526, `main.py` lines 66-75):
emit the next output line from the pending comma-separated segments and
return it together with the segments still to place. -/
def get_address_part (parts : List Str) (max_chars : Nat) : Str × List Str :=
  match parts with
  | [] => ([], [])
  | p0 :: rest =>
    if p0.length > max_chars then
      (p0.take max_chars, rest)
    else
      match rest with
      | p1 :: rest2 =>
        if p0.length + (p1 ++ [',', ' ']).length > max_chars then
          (p0, p1 :: rest2)
        else
          (p0 ++ [',', ' '] ++ p1, rest2)
      | [] => (p0, [])

/-- `split_address_into_four(address)` (`try.py` lines 501-541,
`main.py` lines 62-85): strip the comma-separated segments, emit up to
three lines via `get_address_part`, and join whatever is left with
`', '` into the fourth line; the `if remaining:` guards of the source become
matches on the empty list. -/
def split_address_into_four (address : Str) : List Str :=
  match get_address_part ((splitOnComma address).map pyStrip) 60 with
  | (line1, []) => [line1, [], [], []]
  | (line1, rem1) =>
    match get_address_part rem1 60 with
    | (line2, []) => [line1, line2, [], []]
    | (line2, rem2) =>
      match get_address_part rem2 60 with
      | (line3, []) => [line1, line2, line3, []]
      | (line3, rem3) => [line1, line2, line3, joinCommaSpace rem3]

/-- `normalize_company_name(name)` (`try.py` lines 210-220):
`re.sub(r'[^a-zA-Z0-9\s]', '', name.strip().lower())`. -/
def normalize_company_name (name : Str) : Str :=
  (pyLower (pyStrip name)).filter (fun c => c.isAlphanum || isPySpace c)

/-- Address made of 20 comma-separated segments of 10 characters each. -/
def c1_address : Str :=
  List.intercalate [','] (List.replicate 20 (List.replicate 10 'a'))

/-- Address whose seventh comma-separated segment has 61 characters and lands
in the fourth output line. -/
def c4_address : Str := str "a,b,c,d,e,f," ++ List.replicate 61 'x'

/-! ### Company matcher (`find_company_code`, `try.py` lines 264-392) -/

/-- One parsed customer row: the tuple
`(code, normalized_db_name, db_name)` built in `find_company_code`. -/
structure CompanyRecord where
  code : Str
  normalized : Str
  display : Str
deriving DecidableEq

/-- The loop `for line in result.split("\n")[1:]: if line: code, db_name =
line.split(",", 1); ...` of `find_company_code`: `none` models the
`ValueError` escaping to the `except` clause when a nonempty line holds no
comma. -/
def parse_company_lines : List Str → Option (List CompanyRecord)
  | [] => some []
  | line :: rest =>
    if line = [] then parse_company_lines rest
    else
      match splitFirstComma line with
      | none => none
      | some (code, db_name) =>
        match parse_company_lines rest with
        | none => none
        | some recs =>
          some (⟨code, normalize_company_name db_name, db_name⟩ :: recs)

/-- Possible results of `find_company_code`: a company code string, the
`{"status": "typo", "message": ...}` dictionary, or `None`. -/
inductive FindResult where
  | code (c : Str)
  | typo (message : Str)
  | noCode
deriving DecidableEq

/-- Oracle for `difflib.get_close_matches(word, possibilities, n, cutoff)`;
the floating-point similarity computation is kept abstract, the call sites
pass the source literals `n=3` and `cutoff=0.8` through `n` and the pair
`(cutoffNum, cutoffDen) = (8, 10)`. -/
abbrev CloseMatcher := Str → List Str → Nat → Nat × Nat → List Str

/-- `find_company_code(company_name, agent, company_details)`
(`try.py` lines 264-392). External effects are explicit inputs:
`connected` is the outcome of `create_sqlacc_server()`, `select_result` the
text returned by the `CODE, COMPANYNAME` query, `cm` the fuzzy matcher, and
`create_select_result` the text returned by the code lookup that follows
the creation of a new customer. Every `except`-path returns `None`
(`noCode`). -/
def find_company_code (company_name : Str) (connected : Bool)
    (select_result : Str) (cm : CloseMatcher)
    (create_select_result : Str) : FindResult :=
  if !connected then .noCode
  else
    let normalized_input_name := normalize_company_name company_name
    if select_result = [] then .noCode
    else
      match parse_company_lines ((splitOnChar '\n' select_result).drop 1) with
      | none => .noCode
      | some company_data =>
        match company_data.find? (fun r => normalized_input_name == r.normalized) with
        | some r => .code r.code
        | none =>
          let possible_matches :=
            cm normalized_input_name (company_data.map (·.normalized)) 3 (8, 10)
          if possible_matches ≠ [] then
            .typo (str "Did you mean one of these? " ++
              joinCommaSpace
                ((company_data.filter
                  (fun r => possible_matches.contains r.normalized)).map (·.display)))
          else
            if create_select_result ≠ [] then
              let lines := splitOnChar '\n' create_select_result
              if 1 < lines.length ∧ lines.getD 1 [] ≠ [] then
                .code (lines.getD 1 [])
              else .noCode
            else .noCode

/-! ### Webhook relay (`get.py`) -/

/-- JSON values as far as the relay inspects them. -/
inductive JsonVal where
  | s (v : Str)
  | n (v : Nat)
deriving DecidableEq

/-- A JSON object body. -/
abbrev Dict := List (Str × JsonVal)

/-- Python `d[k] = v`: replace the first binding of `k` or append one. -/
def setKey (d : Dict) (k : Str) (v : JsonVal) : Dict :=
  match d with
  | [] => [(k, v)]
  | (k0, v0) :: rest =>
    if k0 = k then (k, v) :: rest else (k0, v0) :: setKey rest k v

/-- Outcome of the `requests.post` call inside `share_data_to_server`:
a response with a status code, a `requests.exceptions.RequestException`,
or another exception. -/
inductive HttpOutcome where
  | ok (statusCode : Nat)
  | reqExn (msg : Str)
  | otherExn (msg : Str)
deriving DecidableEq

/-- `share_data_to_server(data)` (`get.py` lines 16-34): returns the
`(success, message)` pair. -/
def share_data_to_server (outcome : HttpOutcome) : Bool × Str :=
  match outcome with
  | .ok statusCode =>
    if statusCode = 200 then (true, str "Data forwarded successfully")
    else (false, str "Failed to share data. Status code: " ++ natToStr statusCode)
  | .reqExn m => (false, str "Failed to connect to receiving service: " ++ m)
  | .otherExn m => (false, str "Error sharing data: " ++ m)

/-- The JSON body returned by the webhook endpoints, plus the HTTP status
code. -/
structure WebhookResponse where
  httpCode : Nat
  status : Str
  message : Str
  data_position : Option Nat
deriving DecidableEq

/-- `webhook()` (`get.py` lines 36-74): `body` is `request.json`
(`none` for a missing body), `now` the `time.time()` value, `outcome` the
result of the onward POST, and `received_data` the in-memory list. Returns
the new list and the response. -/
def webhook (body : Option Dict) (now : Nat) (outcome : HttpOutcome)
    (received_data : List Dict) : List Dict × WebhookResponse :=
  match body with
  | none => (received_data, ⟨400, str "error", str "No data received", none⟩)
  | some d =>
    if d = [] then
      (received_data, ⟨400, str "error", str "No data received", none⟩)
    else
      let data := setKey d (str "received_at") (JsonVal.n now)
      let rd := received_data ++ [data]
      let sm := share_data_to_server outcome
      if sm.1 then
        (rd, ⟨200, str "success", sm.2, some (rd.length - 1)⟩)
      else
        (rd, ⟨500, str "partial_success",
          str "Data stored but sharing failed: " ++ sm.2, some (rd.length - 1)⟩)

/-- Response body of the retry endpoint. -/
structure RetryResponse where
  httpCode : Nat
  status : Str
  message : Str
deriving DecidableEq

/-- `retry_share_data(position)` (`get.py` lines 85-113). The middle
component records whether `share_data_to_server` was invoked. -/
def retry_share_data (position : Int) (received_data : List Dict)
    (outcome : HttpOutcome) : List Dict × Bool × RetryResponse :=
  if position < 0 ∨ (received_data.length : Int) ≤ position then
    (received_data, false, ⟨400, str "error", str "Invalid position"⟩)
  else
    let sm := share_data_to_server outcome
    if sm.1 then (received_data, true, ⟨200, str "success", sm.2⟩)
    else (received_data, true, ⟨500, str "error", sm.2⟩)

/-! ### CSV processing loops (`process_csv_to_invoices`,
`main.py` lines 170-234 and `try.py` lines 435-499) -/

/-- What the CSV loop sees coming back from `find_company_code`: a code
string, the typo dictionary, or `None`. -/
inductive CodeLookup where
  | code (c : Str)
  | typoDict (msg : Str)
  | noCode
deriving DecidableEq

/-- Python truthiness of the value returned by `find_company_code`: a
string is truthy when nonempty, the typo dictionary is a nonempty dict and
hence truthy, `None` is falsy. -/
def codeLookupTruthy : CodeLookup → Bool
  | .code c => !c.isEmpty
  | .typoDict _ => true
  | .noCode => false

/-- The summary dictionary built by `process_csv_to_invoices`; `error`
records whether the `except` clause added an `'error'` key after an
exception aborted the loop. -/
structure ProcessingResults where
  total_records : Nat
  processed_records : Nat
  skipped_records : Nat
  error : Bool
deriving DecidableEq

/-- The row loop of `process_csv_to_invoices` in `main.py` (lines 183-228).
A record with fewer than 15 fields raises `IndexError` while the
company-details dictionary is built, which the `except` clause turns into
an `'error'` entry, ending the loop. A typo dictionary is skipped; a truthy
code is forwarded to `add_quotation` (abstracted by `addQuot`), counting
the row as processed on success and skipped on failure; a falsy result is
skipped. -/
def process_rows_main (findCode : List Str → CodeLookup)
    (addQuot : List Str → Bool) :
    List (List Str) → ProcessingResults → ProcessingResults
  | [], res => res
  | record :: rest, res =>
    let res1 := { res with total_records := res.total_records + 1 }
    if record.length < 15 then { res1 with error := true }
    else
      match findCode record with
      | .typoDict _ =>
        process_rows_main findCode addQuot rest
          { res1 with skipped_records := res1.skipped_records + 1 }
      | r =>
        if codeLookupTruthy r then
          if addQuot record then
            process_rows_main findCode addQuot rest
              { res1 with processed_records := res1.processed_records + 1 }
          else
            process_rows_main findCode addQuot rest
              { res1 with skipped_records := res1.skipped_records + 1 }
        else
          process_rows_main findCode addQuot rest
            { res1 with skipped_records := res1.skipped_records + 1 }

/-- The row loop of `process_csv_to_invoices` in `try.py` (lines 459-493),
which has no special case for the typo dictionary: any truthy result
(including the typo dictionary) is handed to `add_quotation`. -/
def process_rows_tryvariant (findCode : List Str → CodeLookup)
    (addQuot : List Str → Bool) :
    List (List Str) → ProcessingResults → ProcessingResults
  | [], res => res
  | record :: rest, res =>
    let res1 := { res with total_records := res.total_records + 1 }
    if record.length < 15 then { res1 with error := true }
    else
      if codeLookupTruthy (findCode record) then
        if addQuot record then
          process_rows_tryvariant findCode addQuot rest
            { res1 with processed_records := res1.processed_records + 1 }
        else
          process_rows_tryvariant findCode addQuot rest
            { res1 with skipped_records := res1.skipped_records + 1 }
      else
        process_rows_tryvariant findCode addQuot rest
          { res1 with skipped_records := res1.skipped_records + 1 }

/-- `process_csv_to_invoices` over already-read data rows (`main.py`
variant): counters start at zero. -/
def process_csv_to_invoices_main (rows : List (List Str))
    (findCode : List Str → CodeLookup) (addQuot : List Str → Bool) :
    ProcessingResults :=
  process_rows_main findCode addQuot rows ⟨0, 0, 0, false⟩

/-- `process_csv_to_invoices` over already-read data rows (`try.py`
variant). -/
def process_csv_to_invoices_tryvariant (rows : List (List Str))
    (findCode : List Str → CodeLookup) (addQuot : List Str → Bool) :
    ProcessingResults :=
  process_rows_tryvariant findCode addQuot rows ⟨0, 0, 0, false⟩

/-- Sample text returned by the `CODE, COMPANYNAME` query: a header row and
two customer rows. -/
def sample_select_result : Str :=
  str "CODE,COMPANYNAME\n300-A01,Alpha Sdn Bhd\n300-B02,Beta Industries"

/-- The parse of `sample_select_result`. -/
def sample_company_data : List CompanyRecord :=
  [⟨str "300-A01", str "alpha sdn bhd", str "Alpha Sdn Bhd"⟩,
   ⟨str "300-B02", str "beta industries", str "Beta Industries"⟩]

/-! Sanity checks of the embedding on concrete inputs. -/

example : splitOnComma (str "a,b,c") = [str "a", str "b", str "c"] := by decide

example : split_address_into_four (str "a,b,c") =
    [str "a, b", str "c", [], []] := by decide

example : split_address_into_four (str "123 Jalan Besar, Taman ABC, Kuala Lumpur, 50000") =
    [str "123 Jalan Besar, Taman ABC", str "Kuala Lumpur, 50000", [], []] := by decide

example : normalize_company_name (str "  Acme, Sdn. Bhd!  ") = str "acme sdn bhd" := by decide

example : normalize_company_name (str "a .") = str "a " := by decide

example : normalize_company_name (str "a ") = str "a" := by decide

/-- Every line emitted by `get_address_part` has at most `m` characters. -/
theorem get_address_part_fst_length_le (parts : List Str) (m : Nat) :
    (get_address_part parts m).1.length ≤ m := by
  rcases parts with _ | ⟨p0, rest⟩
  · simp [get_address_part]
  · rcases rest with _ | ⟨p1, rest2⟩
    · by_cases h0 : p0.length > m
      · simp [get_address_part, h0]
      · simp [get_address_part, h0]
        omega
    · by_cases h0 : p0.length > m
      · simp [get_address_part, h0]
      · by_cases h1 : m < p0.length + (p1.length + 2)
        · simp [get_address_part, h0, h1]
          omega
        · simp [get_address_part, h0, h1]
          omega

/-- C5: for every input address string, `split_address_into_four` returns a
list of exactly 4 elements. -/
theorem C5_split_address_into_four_length (address : Str) :
    (split_address_into_four address).length = 4 := by
  unfold split_address_into_four
  repeat' split
  all_goals rfl

set_option maxRecDepth 8000 in
/-- C1 fails as stated: the fourth line, the `', '`-join of all leftover
segments, can exceed 60 characters (here it has 166), even though no single
segment exceeds 60. -/
theorem C1_counterexample :
    60 < ((split_address_into_four c1_address).getD 3 []).length := by decide

/-- C1 (amended): each of the first three lines produced by
`split_address_into_four` has length at most 60; only the fourth line,
built by joining the leftover segments, can be longer. -/
theorem C1_first_three_lines_le_60 (address : Str) :
    ((split_address_into_four address).getD 0 []).length ≤ 60 ∧
    ((split_address_into_four address).getD 1 []).length ≤ 60 ∧
    ((split_address_into_four address).getD 2 []).length ≤ 60 := by
  unfold split_address_into_four
  rcases h1 : get_address_part ((splitOnComma address).map pyStrip) 60 with ⟨line1, rem1⟩
  have H1 : line1.length ≤ 60 := by
    have h := get_address_part_fst_length_le ((splitOnComma address).map pyStrip) 60
    rw [h1] at h; exact h
  cases rem1 with
  | nil => exact ⟨H1, by simp, by simp⟩
  | cons a1 as1 =>
    dsimp only
    rcases h2 : get_address_part (a1 :: as1) 60 with ⟨line2, rem2⟩
    have H2 : line2.length ≤ 60 := by
      have h := get_address_part_fst_length_le (a1 :: as1) 60
      rw [h2] at h; exact h
    cases rem2 with
    | nil => exact ⟨H1, H2, by simp⟩
    | cons a2 as2 =>
      dsimp only
      rcases h3 : get_address_part (a2 :: as2) 60 with ⟨line3, rem3⟩
      have H3 : line3.length ≤ 60 := by
        have h := get_address_part_fst_length_le (a2 :: as2) 60
        rw [h3] at h; exact h
      cases rem3 with
      | nil => exact ⟨H1, H2, H3⟩
      | cons a3 as3 => exact ⟨H1, H2, H3⟩

/-- C2 fails as stated: in `"a,b,c"` the third segment `"c"` still fits in the
first line under the 60-character limit (`"a, b, c"` has 7 characters), yet the
code starts a new line, because each line packs at most two segments. -/
theorem C2_counterexample :
    split_address_into_four (str "a,b,c") = [str "a, b", str "c", [], []] ∧
    (str "a, b, c").length ≤ 60 := by decide

/-- C2 (amended): each output line packs at most two consecutive segments.
Provided the head segment does not itself exceed the limit, the second
segment is appended to the line exactly when the combined length, including
the `', '` separator, stays within 60 characters; no third segment is ever
appended, even if it would fit. -/
theorem C2_pairwise_packing (p0 p1 : Str) (rest : List Str) (h0 : p0.length ≤ 60) :
    (p0.length + p1.length + 2 ≤ 60 →
      get_address_part (p0 :: p1 :: rest) 60 = (p0 ++ [',', ' '] ++ p1, rest)) ∧
    (60 < p0.length + p1.length + 2 →
      get_address_part (p0 :: p1 :: rest) 60 = (p0, p1 :: rest)) := by
  have hA : ¬ p0.length > 60 := by omega
  have hlen : (p1 ++ [',', ' ']).length = p1.length + 2 := by simp
  constructor <;> intro h
  · have hB : ¬ p0.length + (p1 ++ [',', ' ']).length > 60 := by rw [hlen]; omega
    simp only [get_address_part, if_neg hA, if_neg hB]
  · have hB : p0.length + (p1 ++ [',', ' ']).length > 60 := by rw [hlen]; omega
    simp only [get_address_part, if_neg hA, if_pos hB]

/-- Witness for the amended C2 theorem at concrete inputs: `"a", "b"` pack
into one line; two segments of lengths 30 and 29 do not. -/
theorem C2_pairwise_packing_witness :
    get_address_part [str "a", str "b"] 60 = (str "a, b", []) ∧
    get_address_part [List.replicate 30 'x', List.replicate 29 'y'] 60 =
      (List.replicate 30 'x', [List.replicate 29 'y']) := by
  constructor
  · have h := (C2_pairwise_packing (str "a") (str "b") [] (by decide)).1 (by decide)
    rw [h]; decide
  · exact (C2_pairwise_packing (List.replicate 30 'x') (List.replicate 29 'y') []
      (by decide)).2 (by decide)

/-- C4 fails as stated: a segment longer than 60 characters that is placed
into the fourth line is emitted whole (61 characters), not truncated to its
first 60 characters. -/
theorem C4_counterexample :
    split_address_into_four c4_address =
      [str "a, b", str "c, d", str "e, f", List.replicate 61 'x'] ∧
    60 < (List.replicate 61 'x').length := by decide

/-- C4 (amended): whenever the next segment to place into one of the first
three lines exceeds 60 characters, `get_address_part` emits exactly its first
60 characters and the remainder is dropped — the segments carried forward are
exactly the following ones; segments joined into the fourth line are not
truncated. -/
theorem C4_truncation (p0 : Str) (rest : List Str) (h : 60 < p0.length) :
    get_address_part (p0 :: rest) 60 = (p0.take 60, rest) := by
  have h60 : p0.length > 60 := h
  cases rest <;> simp [get_address_part, h60]

/-- Witness for the amended C4 theorem: a single 61-character segment is
truncated to its first 60 characters. -/
theorem C4_truncation_witness :
    get_address_part [List.replicate 61 'x'] 60 = (List.replicate 60 'x', []) := by
  have h := C4_truncation (List.replicate 61 'x') [] (by decide)
  rw [h]; decide

/-- Decoding `Char.ofNat` at a valid codepoint gives the codepoint back. -/
theorem char_toNat_ofNat {n : Nat} (h : n.isValidChar) : (Char.ofNat n).toNat = n := by
  simp only [Char.ofNat, dif_pos h, Char.ofNatAux, Char.toNat]
  rfl

/-- Characters in the basic latin uppercase range are shifted down by 32. -/
theorem char_toLower_of_upper {c : Char} (h : c.toNat ≥ 65 ∧ c.toNat ≤ 90) :
    c.toLower = Char.ofNat (c.toNat + 32) := by
  unfold Char.toLower
  rw [if_pos h]

/-- Characters outside the basic latin uppercase range are fixed by
`Char.toLower`. -/
theorem char_toLower_of_not_upper {c : Char} (h : ¬(c.toNat ≥ 65 ∧ c.toNat ≤ 90)) :
    c.toLower = c := by
  unfold Char.toLower
  rw [if_neg h]

/-- Lowercasing a character is idempotent. -/
theorem char_toLower_idem (c : Char) : c.toLower.toLower = c.toLower := by
  by_cases h : c.toNat ≥ 65 ∧ c.toNat ≤ 90
  · have h1 : c.toLower = Char.ofNat (c.toNat + 32) := char_toLower_of_upper h
    have hv : (c.toNat + 32).isValidChar := Or.inl (by omega)
    have h2 : c.toLower.toNat = c.toNat + 32 := by rw [h1, char_toNat_ofNat hv]
    apply char_toLower_of_not_upper
    rw [h2]; omega
  · rw [char_toLower_of_not_upper h, char_toLower_of_not_upper h]

/-- Stripping whitespace only removes characters. -/
theorem pyStrip_subset (l : Str) : pyStrip l ⊆ l := by
  intro c hc
  unfold pyStrip at hc
  rw [List.mem_reverse] at hc
  have hc2 := (List.dropWhile_sublist isPySpace).subset hc
  rw [List.mem_reverse] at hc2
  exact (List.dropWhile_sublist isPySpace).subset hc2

/-- Mapping `Char.toLower` over a list of characters it fixes is the
identity. -/
theorem map_toLower_id (l : Str) (h : ∀ c ∈ l, Char.toLower c = c) :
    l.map Char.toLower = l := by
  induction l with
  | nil => rfl
  | cons c cs ih =>
    simp only [List.map_cons]
    rw [h c (by simp), ih (fun d hd => h d (by simp [hd]))]

/-- C3 fails as stated: `normalize_company_name` is not idempotent. On
`"a ."` the first pass strips nothing (the string ends in `'.'`), then drops
the dot and leaves a trailing space; the second pass strips that space. -/
theorem C3_counterexample :
    normalize_company_name (normalize_company_name (str "a .")) ≠
      normalize_company_name (str "a .") := by decide

/-- C3 (amended): a second application of `normalize_company_name` coincides
with stripping the whitespace that removing special characters can expose at
the ends: `normalize (normalize x) = strip (normalize x)` for every `x`, so
the function is idempotent exactly on those inputs whose normal form carries
no leading or trailing whitespace. -/
theorem C3_normalize_normalize (x : Str) :
    normalize_company_name (normalize_company_name x) =
      pyStrip (normalize_company_name x) := by
  set s := normalize_company_name x with hs
  have hprops : ∀ c ∈ s, (c.isAlphanum || isPySpace c) = true ∧ c.toLower = c := by
    intro c hc
    rw [hs] at hc
    unfold normalize_company_name at hc
    have h1 := List.mem_filter.mp hc
    refine ⟨h1.2, ?_⟩
    have h2 := h1.1
    unfold pyLower at h2
    obtain ⟨c0, -, rfl⟩ := List.mem_map.mp h2
    exact char_toLower_idem c0
  unfold normalize_company_name pyLower
  rw [map_toLower_id (pyStrip s) (fun c hc => (hprops c (pyStrip_subset s hc)).2)]
  exact List.filter_eq_self.mpr (fun c hc => (hprops c (pyStrip_subset s hc)).1)

/-- When the element at index `i` is the first one satisfying the predicate,
`find?` returns it. -/
theorem find?_eq_get_of_first {α : Type} (p : α → Bool) (l : List α) :
    ∀ (i : Nat) (hi : i < l.length),
      p (l.get ⟨i, hi⟩) = true →
      (∀ j (hj : j < i), p (l.get ⟨j, Nat.lt_trans hj hi⟩) = false) →
      l.find? p = some (l.get ⟨i, hi⟩) := by
  induction l with
  | nil => intro i hi; simp at hi
  | cons a l ih =>
    intro i hi hp hmin
    cases i with
    | zero =>
      rw [List.find?_cons_of_pos _ (by simpa using hp)]
      rfl
    | succ i =>
      have ha : p a = false := by simpa using hmin 0 (Nat.succ_pos i)
      have hi' : i < l.length := by simpa using hi
      have hp' : p (l.get ⟨i, hi'⟩) = true := by simpa using hp
      have hmin' : ∀ j (hj : j < i), p (l.get ⟨j, Nat.lt_trans hj hi'⟩) = false := by
        intro j hj
        have := hmin (j + 1) (by omega)
        simpa using this
      rw [List.find?_cons_of_neg _ (by simp [ha])]
      rw [ih i hi' hp' hmin']
      rfl

/-- C6: when the normalized input name equals the normalized name of a
fetched record (at position `i`, the first such), `find_company_code`
returns that record's code, for every fuzzy matcher and every creation
result — so without consulting the fuzzy match or creating a customer. -/
theorem C6_exact_match_returns_first_code (company_name sel create_sel : Str)
    (cm : CloseMatcher) (data : List CompanyRecord) (i : Nat) (hi : i < data.length)
    (hsel : sel ≠ [])
    (hparse : parse_company_lines ((splitOnChar '\n' sel).drop 1) = some data)
    (hmatch : normalize_company_name company_name = (data.get ⟨i, hi⟩).normalized)
    (hfirst : ∀ j (hj : j < i),
      normalize_company_name company_name ≠ (data.get ⟨j, Nat.lt_trans hj hi⟩).normalized) :
    find_company_code company_name true sel cm create_sel =
      .code ((data.get ⟨i, hi⟩).code) := by
  have hfind : data.find?
      (fun r => normalize_company_name company_name == r.normalized) =
      some (data.get ⟨i, hi⟩) := by
    apply find?_eq_get_of_first
    · simpa using hmatch
    · intro j hj
      simpa using hfirst j hj
  unfold find_company_code
  simp only [Bool.not_true, Bool.false_eq_true, if_false, if_neg hsel, hparse, hfind]

/-- Witness for the C6 theorem: the second fetched record matches exactly,
the first does not, and its code is returned. -/
theorem C6_exact_match_returns_first_code_witness :
    find_company_code (str "Beta Industries!") true sample_select_result
      (fun _ _ _ _ => []) (str "") = .code (str "300-B02") := by
  have h := C6_exact_match_returns_first_code (str "Beta Industries!")
    sample_select_result (str "") (fun _ _ _ _ => []) sample_company_data 1
    (by decide) (by decide) (by decide) (by decide)
    (by
      intro j hj
      have hj0 : j = 0 := by omega
      subst hj0
      exact (by decide :
        normalize_company_name (str "Beta Industries!") ≠
          (sample_company_data.get ⟨0, Nat.zero_lt_two⟩).normalized))
  rw [h]
  decide

/-- C7: when no record matches exactly but the fuzzy matcher returns at
least one candidate, `find_company_code` returns the typo dictionary whose
message joins the display names of the records whose normalized name is
among the matches — not a code, and independently of the creation result. -/
theorem C7_fuzzy_match_typo (company_name sel create_sel : Str)
    (cm : CloseMatcher) (data : List CompanyRecord)
    (hsel : sel ≠ [])
    (hparse : parse_company_lines ((splitOnChar '\n' sel).drop 1) = some data)
    (hnoexact : ∀ r ∈ data, normalize_company_name company_name ≠ r.normalized)
    (hmatches :
      cm (normalize_company_name company_name) (data.map (·.normalized)) 3 (8, 10) ≠ []) :
    find_company_code company_name true sel cm create_sel =
      .typo (str "Did you mean one of these? " ++
        joinCommaSpace ((data.filter (fun r =>
          (cm (normalize_company_name company_name)
            (data.map (·.normalized)) 3 (8, 10)).contains r.normalized)).map
            (·.display))) := by
  have hfind : data.find?
      (fun r => normalize_company_name company_name == r.normalized) = none := by
    rw [List.find?_eq_none]
    intro r hr
    simpa using hnoexact r hr
  unfold find_company_code
  simp only [Bool.not_true, Bool.false_eq_true, if_false, if_neg hsel, hparse, hfind,
    if_pos hmatches]

/-- Witness for the C7 theorem: a misspelt name, a matcher that returns its
first candidate, and the resulting typo message carrying the display name. -/
theorem C7_fuzzy_match_typo_witness :
    find_company_code (str "Alpa Sdn Bhd") true sample_select_result
      (fun _ cands _ _ => cands.take 1) (str "") =
      .typo (str "Did you mean one of these? Alpha Sdn Bhd") := by
  have h := C7_fuzzy_match_typo (str "Alpa Sdn Bhd") sample_select_result (str "")
    (fun _ cands _ _ => cands.take 1) sample_company_data
    (by decide) (by decide) (by decide) (by decide)
  rw [h]
  decide

/-- C8: for a non-empty body the handler appends the timestamped payload to
the list and reports its index (list length minus one); when the onward POST
fails it still stores the entry and answers 500 with status
`partial_success`; a missing or empty body answers 400 and stores nothing. -/
theorem C8_webhook_behaviour (d : Dict) (now : Nat) (o : HttpOutcome)
    (rd : List Dict) (hd : d ≠ []) :
    (webhook (some d) now o rd).1 =
      rd ++ [setKey d (str "received_at") (JsonVal.n now)] ∧
    (webhook (some d) now o rd).2.data_position =
      some ((webhook (some d) now o rd).1.length - 1) ∧
    (webhook (some d) now o rd).1.length - 1 = rd.length ∧
    ((share_data_to_server o).1 = false →
      (webhook (some d) now o rd).2.httpCode = 500 ∧
      (webhook (some d) now o rd).2.status = str "partial_success" ∧
      setKey d (str "received_at") (JsonVal.n now) ∈ (webhook (some d) now o rd).1) ∧
    ((share_data_to_server o).1 = true →
      (webhook (some d) now o rd).2.httpCode = 200 ∧
      (webhook (some d) now o rd).2.status = str "success") ∧
    webhook none now o rd =
      (rd, ⟨400, str "error", str "No data received", none⟩) ∧
    webhook (some []) now o rd =
      (rd, ⟨400, str "error", str "No data received", none⟩) := by
  rcases hsm : share_data_to_server o with ⟨b, msg⟩
  cases b <;> simp [webhook, hd, hsm]

/-- Witness for the C8 theorem: a one-field payload, a failing onward POST,
an initially empty list. -/
theorem C8_webhook_behaviour_witness :
    (webhook (some [(str "x", JsonVal.s (str "y"))]) 7
        (.reqExn (str "refused")) []).1 =
      [[(str "x", JsonVal.s (str "y")), (str "received_at", JsonVal.n 7)]] ∧
    (webhook (some [(str "x", JsonVal.s (str "y"))]) 7
        (.reqExn (str "refused")) []).2.httpCode = 500 := by
  have h := C8_webhook_behaviour [(str "x", JsonVal.s (str "y"))] 7
    (.reqExn (str "refused")) [] (by decide)
  constructor
  · rw [h.1]
    decide
  · exact (h.2.2.2.1 (by decide)).1

/-- Every iteration of the `main.py` CSV loop over well-formed rows counts
the row once in the total and exactly once as processed or skipped. -/
theorem process_rows_main_total_eq (findCode : List Str → CodeLookup)
    (addQuot : List Str → Bool) (rows : List (List Str)) :
    ∀ res : ProcessingResults,
      (∀ r ∈ rows, 15 ≤ r.length) →
      res.total_records = res.processed_records + res.skipped_records →
      (process_rows_main findCode addQuot rows res).total_records =
        (process_rows_main findCode addQuot rows res).processed_records +
        (process_rows_main findCode addQuot rows res).skipped_records := by
  induction rows with
  | nil =>
    intro res _ hres
    simpa [process_rows_main] using hres
  | cons record rest ih =>
    intro res hlen hres
    have hrec : ¬ record.length < 15 := by
      have := hlen record (by simp)
      omega
    have hrest : ∀ r ∈ rest, 15 ≤ r.length := fun r hr => hlen r (by simp [hr])
    simp only [process_rows_main, if_neg hrec]
    rcases hk : findCode record with c | m | _
    · by_cases hq : addQuot record <;>
        cases hc : c.isEmpty <;>
          simp [codeLookupTruthy, hq, hc] <;>
            exact ih _ hrest (by simp; omega)
    · exact ih _ hrest (by simp; omega)
    · simp [codeLookupTruthy]
      exact ih _ hrest (by simp; omega)

/-- Every iteration of the `try.py` CSV loop over well-formed rows counts
the row once in the total and exactly once as processed or skipped. -/
theorem process_rows_tryvariant_total_eq (findCode : List Str → CodeLookup)
    (addQuot : List Str → Bool) (rows : List (List Str)) :
    ∀ res : ProcessingResults,
      (∀ r ∈ rows, 15 ≤ r.length) →
      res.total_records = res.processed_records + res.skipped_records →
      (process_rows_tryvariant findCode addQuot rows res).total_records =
        (process_rows_tryvariant findCode addQuot rows res).processed_records +
        (process_rows_tryvariant findCode addQuot rows res).skipped_records := by
  induction rows with
  | nil =>
    intro res _ hres
    simpa [process_rows_tryvariant] using hres
  | cons record rest ih =>
    intro res hlen hres
    have hrec : ¬ record.length < 15 := by
      have := hlen record (by simp)
      omega
    have hrest : ∀ r ∈ rest, 15 ≤ r.length := fun r hr => hlen r (by simp [hr])
    simp only [process_rows_tryvariant, if_neg hrec]
    by_cases ht : codeLookupTruthy (findCode record) <;>
      by_cases hq : addQuot record <;>
        simp [ht, hq] <;>
          exact ih _ hrest (by simp; omega)

/-- C9: in both quote-processor variants, when every data row has at least
15 fields (so no exception escapes the loop body), the summary satisfies
`total_records = processed_records + skipped_records`. -/
theorem C9_total_eq_processed_plus_skipped (rows : List (List Str))
    (findCode : List Str → CodeLookup) (addQuot : List Str → Bool)
    (h : ∀ r ∈ rows, 15 ≤ r.length) :
    ((process_csv_to_invoices_main rows findCode addQuot).total_records =
      (process_csv_to_invoices_main rows findCode addQuot).processed_records +
      (process_csv_to_invoices_main rows findCode addQuot).skipped_records) ∧
    ((process_csv_to_invoices_tryvariant rows findCode addQuot).total_records =
      (process_csv_to_invoices_tryvariant rows findCode addQuot).processed_records +
      (process_csv_to_invoices_tryvariant rows findCode addQuot).skipped_records) :=
  ⟨process_rows_main_total_eq findCode addQuot rows _ h rfl,
   process_rows_tryvariant_total_eq findCode addQuot rows _ h rfl⟩

/-- Witness for the C9 theorem on one well-formed row that ends up
skipped. -/
theorem C9_total_eq_processed_plus_skipped_witness :
    (process_csv_to_invoices_main [List.replicate 15 ([] : Str)]
        (fun _ => CodeLookup.noCode) (fun _ => false)).total_records =
      (process_csv_to_invoices_main [List.replicate 15 ([] : Str)]
        (fun _ => CodeLookup.noCode) (fun _ => false)).processed_records +
      (process_csv_to_invoices_main [List.replicate 15 ([] : Str)]
        (fun _ => CodeLookup.noCode) (fun _ => false)).skipped_records :=
  (C9_total_eq_processed_plus_skipped [List.replicate 15 ([] : Str)]
    (fun _ => CodeLookup.noCode) (fun _ => false) (by decide)).1

/-- C10: the retry endpoint never changes the stored list, and a position
outside `[0, len)` answers 400 with message `Invalid position` without
attempting to forward anything. -/
theorem C10_retry_share_frame (position : Int) (rd : List Dict)
    (o : HttpOutcome) :
    (retry_share_data position rd o).1 = rd ∧
    ((position < 0 ∨ (rd.length : Int) ≤ position) →
      retry_share_data position rd o =
        (rd, false, ⟨400, str "error", str "Invalid position"⟩)) := by
  rcases hsm : share_data_to_server o with ⟨b, msg⟩
  constructor
  · by_cases hpos : position < 0 ∨ (rd.length : Int) ≤ position
    · simp [retry_share_data, hpos]
    · cases b <;> simp [retry_share_data, hpos, hsm]
  · intro hpos
    simp [retry_share_data, hpos]

/-- Witness for the C10 theorem: position 5 on an empty list. -/
theorem C10_retry_share_frame_witness :
    retry_share_data 5 [] (.ok 200) =
      ([], false, ⟨400, str "error", str "Invalid position"⟩) :=
  (C10_retry_share_frame 5 [] (.ok 200)).2 (by decide)

end QuoteRepo
